import Mathlib

/-!
Verification development for the MockBigQuery repository.

The definitions below are a shallow embedding of the final-generation
storage layer in `src/database.py` (class `DuckDBClient`): the three
tables (`tags`, `research_extractions`, `extraction_tags`), the insert
path `insert_extraction` with its tag linker
`_insert_extraction_tag_relations`, the query path `get_extractions`,
`get_extraction_by_id`, the update path `update_extraction_deleted_at`,
the catalog insert `insert_tag`, and the row decoder `_row_to_dict`.

Python JSON values are modeled by the inductive type `Json`; the
standard-library serializer `json.dumps` (external to the repository) is
modeled by `dumps`, and the standard-library parser `json.loads` is kept
abstract: every operation that decodes rows is parameterized by a parse
function `p : String → Option Json` (`none` models a parse failure, the
`json.JSONDecodeError` branch of `_row_to_dict`).

Timestamps are modeled as natural numbers (`created_at`), and the
nullable `deleted_at` column as `Option String`.  The unused
`created_at` columns of `tags` and `extraction_tags` (written once,
never read by any modeled operation) are omitted from the record types.
-/

namespace MockBigQuery

/-- Model of a Python/JSON value as stored in the JSON columns. -/
inductive Json where
  | str : String → Json
  | num : Int → Json
  | bool : Bool → Json
  | null : Json
  | arr : List Json → Json
  | obj : List (String × Json) → Json
deriving Repr, BEq

/-- Left brace character, written via a hex escape. -/
def lbrace : String := "\x7b"

/-- Right brace character, written via a hex escape. -/
def rbrace : String := "\x7d"

/-- Join a list of strings with commas (helper for `dumps`). -/
def commaJoin : List String → String
  | [] => ""
  | [s] => s
  | s :: rest => s ++ "," ++ commaJoin rest

mutual
/-- Model of the external `json.dumps` serializer (quote escaping is not
reproduced; no claim inspects the serialized text itself). -/
def dumps : Json → String
  | .str s => "\"" ++ s ++ "\""
  | .num n => toString n
  | .bool b => toString b
  | .null => "null"
  | .arr l => "[" ++ commaJoin (dumpsList l) ++ "]"
  | .obj l => lbrace ++ commaJoin (dumpsObj l) ++ rbrace

/-- Serialize each element of a JSON array. -/
def dumpsList : List Json → List String
  | [] => []
  | j :: rest => dumps j :: dumpsList rest

/-- Serialize each key-value pair of a JSON object. -/
def dumpsObj : List (String × Json) → List String
  | [] => []
  | (k, v) :: rest => ("\"" ++ k ++ "\":" ++ dumps v) :: dumpsObj rest
end

/-- Row of the `tags` table: `id UUID PRIMARY KEY, name, category`. -/
structure Tag where
  id : String
  name : String
  category : String
deriving Repr, DecidableEq

/-- Row of the `extraction_tags` relationship table:
`PRIMARY KEY (extraction_id, tag_id)` plus the denormalized
`tag_category`. -/
structure Rel where
  extraction_id : String
  tag_id : String
  tag_category : String
deriving Repr, DecidableEq

/-- Row of the `research_extractions` table.  The seven JSON columns
hold the serialized text exactly as the driver returns it (strings). -/
structure ExtractionRow where
  id : String
  title : String
  published_date : Option String
  authors : String
  summary : String
  tags : String
  pros : String
  cons : String
  trade_ideas : String
  suggested_tags : String
  created_at : Nat
  deleted_at : Option String
deriving Repr, DecidableEq

/-- Decoded record as produced by `_row_to_dict`: the seven JSON fields
have been parsed into structured values. -/
structure DecodedRow where
  id : String
  title : String
  published_date : Option String
  authors : Json
  summary : Json
  tags : Json
  pros : Json
  cons : Json
  trade_ideas : Json
  suggested_tags : Json
  created_at : Nat
  deleted_at : Option String
deriving Repr, BEq

/-- Whole database state: the three tables. -/
structure DB where
  tags : List Tag
  extractions : List ExtractionRow
  rels : List Rel
deriving Repr

/-- Embedded tags object of an extraction (`models.Tags`): six
list-of-string category fields plus the `counterpart` string.  A `none`
counterpart models a payload whose dict lacks the key
(`tags_obj.get` returns `None`). -/
structure TagsObj where
  asset_class : List String := []
  e_d : List String := []
  region : List String := []
  country : List String := []
  sector : List String := []
  trade : List String := []
  counterpart : Option String := none
deriving Repr, DecidableEq

/-- Nested trade idea of an insert payload (`models.TradeIdea`). -/
structure TradeIdeaData where
  recommendation : String
  summary : List Json := []
  conviction : Int
  pros : List String := []
  cons : List String := []
deriving Repr

/-- Insert payload for `insert_extraction` (the `data` dict).  `id` and
`title` are `Option` because the code reads them with `data[...]`,
raising `KeyError` when absent; the remaining fields are read with
`data.get(..., default)`. -/
structure Payload where
  id : Option String := none
  title : Option String := none
  published_date : Option String := none
  authors : List String := []
  summary : List Json := []
  tags : TagsObj := {}
  pros : List String := []
  cons : List String := []
  trade_ideas : List TradeIdeaData := []
  suggested_tags : List Json := []
  created_at : Nat := 0
deriving Repr

/-- Errors the Python insert paths can raise: `KeyError` for a missing
dict key, and the DuckDB primary-key `ConstraintException` (re-raised by
the `except` blocks of `insert_extraction` and `insert_tag`). -/
inductive PyError where
  | keyError : String → PyError
  | duplicateKey : PyError
deriving Repr, DecidableEq

/-- Normalization used by the code on counterpart values and on every
requested tag name: `s.replace(' ', '')`, that is, removal of every
space character. -/
def normTag (s : String) : String := ⟨s.data.filter (fun c => c ≠ ' ')⟩

/-- Catalog lookup `SELECT id FROM tags WHERE name = ? AND category = ?`
followed by `fetchone()`. -/
def lookup_tag (catalog : List Tag) (name category : String) : Option Tag :=
  catalog.find? (fun t => t.name == name && t.category == category)

/-- Result of one run of the tag linker: the updated relationship table,
the count of rows created (`inserted_count`), and the reported misses as
`(looked-up name, DB category)` pairs. -/
structure LinkResult where
  rels : List Rel
  linked : Nat
  misses : List (String × String)
deriving Repr, DecidableEq

/-- One step of the linker loop: look `(name, dbCat)` up in the catalog;
on a hit, insert the relationship row unless the primary key
`(extraction_id, tag_id)` already exists (the duplicate insert is
swallowed by `except: pass`); on a miss, record the diagnostic. -/
def link_one (catalog : List Tag) (eid : String) (st : LinkResult)
    (name dbCat : String) : LinkResult :=
  match lookup_tag catalog name dbCat with
  | some t =>
      if st.rels.any (fun r => r.extraction_id == eid && r.tag_id == t.id) then
        st
      else
        { st with rels := st.rels ++ [⟨eid, t.id, dbCat⟩], linked := st.linked + 1 }
  | none => { st with misses := st.misses ++ [(name, dbCat)] }

/-- Sequence of `(name, DB category)` lookups performed by the linker:
the six category lists in the order of `category_mapping` (note the
code-to-DB renames `asset_class` to `assetClass` and `e_d` to `eD`),
followed by the counterpart, which is skipped when falsy (absent or the
empty string) and otherwise looked up under its space-stripped form. -/
def linkItems (tobj : TagsObj) : List (String × String) :=
  tobj.asset_class.map (fun n => (n, "assetClass")) ++
  tobj.e_d.map (fun n => (n, "eD")) ++
  tobj.region.map (fun n => (n, "region")) ++
  tobj.country.map (fun n => (n, "country")) ++
  tobj.sector.map (fun n => (n, "sector")) ++
  tobj.trade.map (fun n => (n, "trade")) ++
  (match tobj.counterpart with
   | some s => if s = "" then [] else [(normTag s, "counterpart")]
   | none => [])

/-- Model of `_insert_extraction_tag_relations`: process every lookup
item in order, threading the relationship table, the created-row count
and the accumulated misses.  The Python function emits the misses and
the final count as diagnostics; it never raises (its body is wrapped in
a `try` whose handler only logs). -/
def insert_extraction_tag_relations (db : DB) (eid : String) (tobj : TagsObj) :
    LinkResult :=
  (linkItems tobj).foldl (fun st it => link_one db.tags eid st it.1 it.2)
    { rels := db.rels, linked := 0, misses := [] }

/-- Decode one stored JSON column: parse the string; on parse failure
replace the value by the empty list (the `json.JSONDecodeError` branch
of `_row_to_dict`). -/
def decodeJsonField (p : String → Option Json) (s : String) : Json :=
  match p s with
  | some v => v
  | none => Json.arr []

/-- Model of `_row_to_dict` on an extraction row: copy the plain
columns, decode the seven JSON columns. -/
def row_to_dict (p : String → Option Json) (r : ExtractionRow) : DecodedRow :=
  { id := r.id
    title := r.title
    published_date := r.published_date
    authors := decodeJsonField p r.authors
    summary := decodeJsonField p r.summary
    tags := decodeJsonField p r.tags
    pros := decodeJsonField p r.pros
    cons := decodeJsonField p r.cons
    trade_ideas := decodeJsonField p r.trade_ideas
    suggested_tags := decodeJsonField p r.suggested_tags
    created_at := r.created_at
    deleted_at := r.deleted_at }

/-- Does a relationship row `(eid, tid)` exist? -/
def relExists (db : DB) (eid tid : String) : Bool :=
  db.rels.any (fun r => r.extraction_id == eid && r.tag_id == tid)

/-- Distinct matched tag names of one extraction: names of catalog tags
that carry a relationship row with the extraction and whose name is in
the normalized requested list (`COUNT(DISTINCT t.name)` computes the
length of this deduplicated list). -/
def matchedNames (db : DB) (ns : List String) (eid : String) : List String :=
  ((db.tags.filter (fun t => ns.contains t.name && relExists db eid t.id)).map
    (fun t => t.name)).dedup

/-- Tag AND-filter of `get_extractions`: the grouped subquery keeps an
extraction when `COUNT(DISTINCT t.name)` over its relationship rows with
a requested name equals the number of requested tags. -/
def tagMatch (db : DB) (S : List String) (eid : String) : Bool :=
  (matchedNames db (S.map normTag) eid).length == S.length

/-- Date window `re.published_date >= start AND re.published_date <= end`
(a NULL `published_date` fails any comparison, as in SQL). -/
def dateOk (start_date end_date : Option String) (r : ExtractionRow) : Bool :=
  (match start_date with
   | none => true
   | some s => match r.published_date with
     | some d => decide (s ≤ d)
     | none => false) &&
  (match end_date with
   | none => true
   | some e => match r.published_date with
     | some d => decide (d ≤ e)
     | none => false)

/-- Output order `ORDER BY published_date DESC, created_at DESC`: `a`
sorts at or before `b` (NULL dates last, matching DuckDB NULLS LAST). -/
def beforeRow (a b : ExtractionRow) : Bool :=
  match a.published_date, b.published_date with
  | some x, some y =>
      if x = y then decide (b.created_at ≤ a.created_at) else decide (y < x)
  | some _, none => true
  | none, some _ => false
  | none, none => decide (b.created_at ≤ a.created_at)

/-- Insert a row into an ordered list (helper for `sortRows`). -/
def insertSorted (a : ExtractionRow) : List ExtractionRow → List ExtractionRow
  | [] => [a]
  | x :: xs => if beforeRow a x then a :: x :: xs else x :: insertSorted a xs

/-- Model of the ORDER BY clause as an insertion sort on `beforeRow`. -/
def sortRows : List ExtractionRow → List ExtractionRow
  | [] => []
  | x :: xs => insertSorted x (sortRows xs)

/-- Tag-filter stage of `get_extractions`: applied only when a
non-empty list was passed (`if tags and len(tags) > 0`). -/
def tagFilterStep (db : DB) (tags : Option (List String)) :
    List ExtractionRow :=
  match tags with
  | some S => if S.isEmpty then db.extractions
              else db.extractions.filter (fun r => tagMatch db S r.id)
  | none => db.extractions

/-- LIMIT stage of `get_extractions`: the Python guard `if limit:` skips
the clause for `limit = 0` as well as for `None`. -/
def applyLimit (limit : Option Nat) (l : List ExtractionRow) :
    List ExtractionRow :=
  match limit with
  | some k => if k = 0 then l else l.take k
  | none => l

/-- Row-selection pipeline of `get_extractions`: optional tag
AND-filter, optional date window, ordering, LIMIT. -/
def select_extractions (db : DB) (tags : Option (List String))
    (start_date end_date : Option String) (limit : Option Nat) :
    List ExtractionRow :=
  applyLimit limit
    (sortRows ((tagFilterStep db tags).filter (dateOk start_date end_date)))

/-- Model of `get_extractions`: the selected rows, each decoded by
`_row_to_dict`. -/
def get_extractions (p : String → Option Json) (db : DB)
    (tags : Option (List String)) (start_date end_date : Option String)
    (limit : Option Nat) : List DecodedRow :=
  (select_extractions db tags start_date end_date limit).map (row_to_dict p)

/-- Model of `get_extraction_by_id`: `SELECT * WHERE id = ?`,
`fetchone()`, decode; `none` models the NotFound result.  Note that the
function has no `include_deleted` parameter and never reads
`deleted_at`. -/
def get_extraction_by_id (p : String → Option Json) (db : DB) (eid : String) :
    Option DecodedRow :=
  (db.extractions.find? (fun r => r.id == eid)).map (row_to_dict p)

/-- Model of `update_extraction_deleted_at`: set (or clear) `deleted_at`
on every row with the given id; the function returns `True`. -/
def update_extraction_deleted_at (db : DB) (eid : String)
    (deleted_at : Option String) : DB × Bool :=
  ({ db with
      extractions := db.extractions.map (fun r =>
        if r.id == eid then { r with deleted_at := deleted_at } else r) },
   true)

/-- Model of `insert_tag`: a plain INSERT whose only constraint is the
primary key on `id`; on success the inserted row is re-selected and
returned. -/
def insert_tag (db : DB) (tag_id name category : String) :
    Except PyError (DB × Tag) :=
  if db.tags.any (fun t => t.id == tag_id) then
    .error .duplicateKey
  else
    let t : Tag := ⟨tag_id, name, category⟩
    .ok ({ db with tags := db.tags ++ [t] }, t)

/-- Serialization of a summary entry on insert: a dict is kept, any
other value `s` is wrapped as an object with empty title and body `s`. -/
def wrapSummary (j : Json) : Json :=
  match j with
  | .obj l => .obj l
  | other => .obj [("title", .str ""), ("body", other)]

/-- Serialize the embedded tags object back to a JSON value (the
`json.dumps(data.get('tags', ...))` step). -/
def tagsObjToJson (t : TagsObj) : Json :=
  .obj ((match t.counterpart with
         | some c => [("counterpart", Json.str c)]
         | none => []) ++
        [("asset_class", .arr (t.asset_class.map .str)),
         ("e_d", .arr (t.e_d.map .str)),
         ("region", .arr (t.region.map .str)),
         ("country", .arr (t.country.map .str)),
         ("sector", .arr (t.sector.map .str)),
         ("trade", .arr (t.trade.map .str))])

/-- Serialize a nested trade idea (the `json.dumps` of the
`trade_ideas` list serializes each dict as given). -/
def tradeIdeaToJson (ti : TradeIdeaData) : Json :=
  .obj [("recommendation", .str ti.recommendation),
        ("summary", .arr ti.summary),
        ("conviction", .num ti.conviction),
        ("pros", .arr (ti.pros.map .str)),
        ("cons", .arr (ti.cons.map .str))]

/-- Result of a successful `insert_extraction`: the new database state,
the value the function returns (the re-selected decoded record, or
`none` in the unreachable empty-fetch branch that makes Python return
`None`), and the diagnostics reported by the linker. -/
structure InsertOutcome where
  db : DB
  record : Option DecodedRow
  linked : Nat
  misses : List (String × String)

/-- Model of `insert_extraction`: serialize the JSON fields, read
`data['id']` and `data['title']` (a missing key raises `KeyError` while
building the parameter list, before anything is written), run the
INSERT (a duplicate id raises the primary-key error), then run the tag
linker and re-select the stored record.  No field of the payload is
validated: in particular no conviction bound is checked anywhere. -/
def insert_extraction (p : String → Option Json) (db : DB) (d : Payload) :
    Except PyError InsertOutcome :=
  match d.id with
  | none => .error (.keyError "id")
  | some i =>
    match d.title with
    | none => .error (.keyError "title")
    | some ttl =>
      if db.extractions.any (fun r => r.id == i) then
        .error .duplicateKey
      else
        let row : ExtractionRow :=
          { id := i
            title := ttl
            published_date := d.published_date
            authors := dumps (.arr (d.authors.map .str))
            summary := dumps (.arr (d.summary.map wrapSummary))
            tags := dumps (tagsObjToJson d.tags)
            pros := dumps (.arr (d.pros.map .str))
            cons := dumps (.arr (d.cons.map .str))
            trade_ideas := dumps (.arr (d.trade_ideas.map tradeIdeaToJson))
            suggested_tags := dumps (.arr d.suggested_tags)
            created_at := d.created_at
            deleted_at := none }
        let db1 : DB := { db with extractions := db.extractions ++ [row] }
        let lr := insert_extraction_tag_relations db1 i d.tags
        let db2 : DB := { db1 with rels := lr.rels }
        .ok { db := db2
              record := (db2.extractions.find? (fun r => r.id == i)).map
                (row_to_dict p)
              linked := lr.linked
              misses := lr.misses }

/-! Concrete states used by witnesses and counterexamples.  `pNone` is a
legitimate instance of the abstract parse function (every theorem below
quantifies over the parse function wherever it matters). -/

/-- Parse function that fails on every input. -/
def pNone : String → Option Json := fun _ => none

/-- Sample stored extraction row (active). -/
def c1row : ExtractionRow :=
  { id := "e1"
    title := "T1"
    published_date := some "2025-01-01"
    authors := "[]"
    summary := "[]"
    tags := "x"
    pros := "[]"
    cons := "[]"
    trade_ideas := "[]"
    suggested_tags := "[]"
    created_at := 1
    deleted_at := none }

/-- Database with one extraction linked to one catalog tag. -/
def c1db : DB :=
  { tags := [⟨"t1", "Alpha", "country"⟩]
    extractions := [c1row]
    rels := [⟨"e1", "t1", "country"⟩] }

/-! Helper lemmas about the sort, the filters and the decoder. -/

theorem mem_insertSorted {a x : ExtractionRow} {l : List ExtractionRow} :
    x ∈ insertSorted a l ↔ x = a ∨ x ∈ l := by
  induction l with
  | nil => simp [insertSorted]
  | cons y ys ih =>
      simp only [insertSorted]
      split
      · simp [List.mem_cons]
      · simp only [List.mem_cons, ih]
        tauto

theorem mem_sortRows {x : ExtractionRow} {l : List ExtractionRow} :
    x ∈ sortRows l ↔ x ∈ l := by
  induction l with
  | nil => simp [sortRows]
  | cons y ys ih => simp [sortRows, mem_insertSorted, ih]

theorem mem_matchedNames_src {db : DB} {N : List String} {eid x : String} :
    (x ∈ (db.tags.filter (fun t => N.contains t.name && relExists db eid t.id)).map
        (fun t => t.name)) ↔
      ∃ t, t ∈ db.tags ∧ t.name = x ∧ x ∈ N ∧ relExists db eid t.id = true := by
  simp only [List.mem_map, List.mem_filter, Bool.and_eq_true, List.contains,
    List.elem_iff]
  constructor
  · rintro ⟨t, ⟨ht, hc, hr⟩, rfl⟩
    exact ⟨t, ht, rfl, hc, hr⟩
  · rintro ⟨t, ht, rfl, hc, hr⟩
    exact ⟨t, ⟨ht, hc, hr⟩, rfl⟩

theorem dedup_length_eq_iff {α : Type} [DecidableEq α] {L N : List α}
    (hLN : ∀ x ∈ L, x ∈ N) :
    L.dedup.length = N.length ↔ (∀ x ∈ N, x ∈ L) ∧ N.Nodup := by
  have hcL := List.card_toFinset L
  have hcN := List.card_toFinset N
  have hsub : L.toFinset ⊆ N.toFinset := fun x hx =>
    List.mem_toFinset.2 (hLN x (List.mem_toFinset.1 hx))
  have hle : L.toFinset.card ≤ N.toFinset.card := Finset.card_le_card hsub
  have hNle : N.toFinset.card ≤ N.length := List.toFinset_card_le N
  have hNd : N.dedup.length ≤ N.length := (List.dedup_sublist N).length_le
  constructor
  · intro h
    have hNlen : N.dedup.length = N.length := by omega
    have hnodup : N.Nodup :=
      List.dedup_eq_self.1 ((List.dedup_sublist N).eq_of_length hNlen)
    have hcard : N.toFinset.card ≤ L.toFinset.card := by omega
    have heq : L.toFinset = N.toFinset := Finset.eq_of_subset_of_card_le hsub hcard
    refine ⟨fun x hx => ?_, hnodup⟩
    have hx2 : x ∈ L.toFinset := by
      rw [heq]
      exact List.mem_toFinset.2 hx
    exact List.mem_toFinset.1 hx2
  · rintro ⟨hNL, hnodup⟩
    have heq : L.toFinset = N.toFinset :=
      Finset.Subset.antisymm hsub fun x hx =>
        List.mem_toFinset.2 (hNL x (List.mem_toFinset.1 hx))
    have hN : N.dedup.length = N.length := by
      rw [List.dedup_eq_self.2 hnodup]
    have hcc : L.toFinset.card = N.toFinset.card := by rw [heq]
    omega

theorem tagMatch_iff (db : DB) (S : List String) (eid : String) :
    tagMatch db S eid = true ↔
      ((∀ n ∈ S, ∃ t, t ∈ db.tags ∧ t.name = normTag n ∧
          relExists db eid t.id = true) ∧
       (S.map normTag).Nodup) := by
  unfold tagMatch matchedNames
  rw [beq_iff_eq]
  have hLN : ∀ x ∈ (db.tags.filter
      (fun t => (S.map normTag).contains t.name && relExists db eid t.id)).map
      (fun t => t.name), x ∈ S.map normTag := by
    intro x hx
    rcases mem_matchedNames_src.1 hx with ⟨t, ht, rfl, hc, hr⟩
    exact hc
  rw [← List.length_map S normTag, dedup_length_eq_iff hLN]
  constructor
  · rintro ⟨hall, hnd⟩
    refine ⟨fun n hn => ?_, hnd⟩
    have hx : normTag n ∈ S.map normTag := List.mem_map_of_mem _ hn
    rcases mem_matchedNames_src.1 (hall _ hx) with ⟨t, ht, hname, hc, hr⟩
    exact ⟨t, ht, hname, hr⟩
  · rintro ⟨hall, hnd⟩
    refine ⟨fun x hx => ?_, hnd⟩
    rcases List.mem_map.1 hx with ⟨n, hn, rfl⟩
    rcases hall n hn with ⟨t, ht, hname, hr⟩
    exact mem_matchedNames_src.2 ⟨t, ht, hname, hx, hr⟩

/-- C1: for a duplicate-free non-empty requested list `S` and no date
filters, an extraction row is selected by `get_extractions` if and only
if every name in `S`, once normalized, is the name of some catalog tag
holding a relationship row with the extraction, and the normalized names
are pairwise distinct (the "no fewer" condition: the distinct matched
count must reach the full length of `S`); membership is decided by the
grouped distinct-name count of the relationship rows. -/
theorem c1_and_filter (db : DB) (S : List String) (r : ExtractionRow)
    (hne : S ≠ []) (hnd : S.Nodup) :
    r ∈ select_extractions db (some S) none none none ↔
      (r ∈ db.extractions ∧
       (∀ n ∈ S, ∃ t, t ∈ db.tags ∧ t.name = normTag n ∧
          relExists db r.id t.id = true) ∧
       (S.map normTag).Nodup) := by
  have hSE : S.isEmpty = false := by
    cases S with
    | nil => exact absurd rfl hne
    | cons a l => rfl
  have hdate : (db.extractions.filter (fun r => tagMatch db S r.id)).filter
      (dateOk none none) =
      db.extractions.filter (fun r => tagMatch db S r.id) :=
    List.filter_eq_self.2 fun a _ => rfl
  have hsel : select_extractions db (some S) none none none =
      sortRows (db.extractions.filter (fun r => tagMatch db S r.id)) := by
    simp [select_extractions, tagFilterStep, applyLimit, hSE, hdate]
  rw [hsel, mem_sortRows]
  simp only [List.mem_filter]
  rw [tagMatch_iff]

/-- Witness for C1 at a concrete database and request. -/
theorem c1_witness :
    (["Alpha"] : List String) ≠ [] ∧
    c1row ∈ select_extractions c1db (some ["Alpha"]) none none none :=
  ⟨by decide, (c1_and_filter c1db ["Alpha"] c1row (by decide) (by decide)).mpr
    (by decide)⟩

/-- Insert payload of the concrete scenario of the spec (extraction
"Japan Q4"), with the id the store assigns at creation. -/
def c2payload : Payload :=
  { id := some "e1"
    title := some "Japan Q4"
    published_date := some "2025-11-09"
    tags := { counterpart := some "Goldman Sachs"
              country := ["Japan"]
              asset_class := ["Equity"] }
    trade_ideas := [{ recommendation := "Long JPY", conviction := 8 }] }

/-- Catalog exactly as the scenario words it: the Equity tag sits in
category `asset_class`. -/
def c2dbSpec : DB :=
  { tags := [⟨"t1", "Japan", "country"⟩, ⟨"t2", "Equity", "asset_class"⟩,
             ⟨"t3", "GoldmanSachs", "counterpart"⟩]
    extractions := []
    rels := [] }

/-- Catalog adjusted to the categories the linker actually looks up:
the Equity tag must sit in DB category `assetClass`. -/
def c2dbAmended : DB :=
  { tags := [⟨"t1", "Japan", "country"⟩, ⟨"t2", "Equity", "assetClass"⟩,
             ⟨"t3", "GoldmanSachs", "counterpart"⟩]
    extractions := []
    rels := [] }

/-- C2 counterexample: against the catalog written exactly as in the
claim (Equity under category `asset_class`), the insert creates only 2
relationship rows with 1 miss — the linker looks the `asset_class` field
up under DB category `assetClass`, not under the field name — and the
extraction is then not returned by the `["Japan", "Equity"]` query. -/
theorem c2_counterexample :
    ((insert_extraction pNone c2dbSpec c2payload).toOption.map
      (fun o => (o.linked, o.misses))) = some (2, [("Equity", "assetClass")]) ∧
    ((insert_extraction pNone c2dbSpec c2payload).toOption.map
      (fun o => (select_extractions o.db (some ["Japan", "Equity"])
        none none none).length)) = some 0 :=
  ⟨rfl, rfl⟩

/-- C2 amended: with the Equity tag catalogued under the DB category
`assetClass` that the linker maps the `asset_class` field to, the
scenario behaves as stated: 3 relationship rows, 0 misses, the
extraction is returned by tags `["Japan", "Equity"]` and not by
`["Japan", "Technology"]`. -/
theorem c2_amended_scenario :
    ((insert_extraction pNone c2dbAmended c2payload).toOption.map
      (fun o => (o.linked, o.misses.length))) = some (3, 0) ∧
    ((insert_extraction pNone c2dbAmended c2payload).toOption.map
      (fun o =>
        ((select_extractions o.db (some ["Japan", "Equity"]) none none none).map
          (fun r => r.id),
         select_extractions o.db (some ["Japan", "Technology"])
           none none none))) = some (["e1"], []) :=
  ⟨rfl, rfl⟩

/-- Soft-deleted stored extraction row. -/
def c3row : ExtractionRow :=
  { id := "e1"
    title := "T1"
    published_date := some "2025-01-01"
    authors := "[]"
    summary := "[]"
    tags := "x"
    pros := "[]"
    cons := "[]"
    trade_ideas := "[]"
    suggested_tags := "[]"
    created_at := 1
    deleted_at := some "2025-02-02" }

/-- Database holding only the soft-deleted row. -/
def c3db : DB := { tags := [], extractions := [c3row], rels := [] }

/-- C3 counterexample: the default (no-filter) result of
`get_extractions` contains a record whose `deleted_at` is not null — the
query never examines `deleted_at`. -/
theorem c3_counterexample :
    (get_extractions pNone c3db none none none none).map
      (fun d => (d.id, d.deleted_at)) = [("e1", some "2025-02-02")] :=
  rfl

/-- Rewrite only the `deleted_at` field of a row. -/
def setDeletedAt (g : ExtractionRow → Option String) (r : ExtractionRow) :
    ExtractionRow :=
  { r with deleted_at := g r }

/-- Rewrite the `deleted_at` field of every stored extraction. -/
def mapDeletedAt (g : ExtractionRow → Option String) (db : DB) : DB :=
  { db with extractions := db.extractions.map (setDeletedAt g) }

theorem filter_map_comm {α : Type} (f : α → α) (p : α → Bool)
    (hp : ∀ a, p (f a) = p a) (l : List α) :
    (l.map f).filter p = (l.filter p).map f := by
  induction l with
  | nil => rfl
  | cons x xs ih =>
      simp only [List.map_cons, List.filter_cons, hp x]
      cases hpx : p x <;> simp [ih]

theorem insertSorted_map (f : ExtractionRow → ExtractionRow)
    (hf : ∀ a b, beforeRow (f a) (f b) = beforeRow a b)
    (a : ExtractionRow) (l : List ExtractionRow) :
    insertSorted (f a) (l.map f) = (insertSorted a l).map f := by
  induction l with
  | nil => rfl
  | cons y ys ih =>
      simp only [List.map_cons, insertSorted, hf a y]
      cases h : beforeRow a y <;> simp [ih]

theorem sortRows_map (f : ExtractionRow → ExtractionRow)
    (hf : ∀ a b, beforeRow (f a) (f b) = beforeRow a b)
    (l : List ExtractionRow) :
    sortRows (l.map f) = (sortRows l).map f := by
  induction l with
  | nil => rfl
  | cons y ys ih =>
      simp only [List.map_cons, sortRows, ih]
      exact insertSorted_map f hf y _

/-- C3 amended: `get_extractions` never examines `deleted_at`.  Its row
selection commutes with an arbitrary rewrite of every record's
`deleted_at`; in particular soft-deleted records appear in the default
result exactly as active ones do, subject only to the tag and date
filters. -/
theorem c3_amended (g : ExtractionRow → Option String) (db : DB)
    (tags : Option (List String)) (sd ed : Option String) (lim : Option Nat) :
    select_extractions (mapDeletedAt g db) tags sd ed lim =
      (select_extractions db tags sd ed lim).map (setDeletedAt g) := by
  have hf : ∀ a b, beforeRow (setDeletedAt g a) (setDeletedAt g b) = beforeRow a b :=
    fun a b => rfl
  have hdate : ∀ r, dateOk sd ed (setDeletedAt g r) = dateOk sd ed r :=
    fun r => rfl
  have happly : ∀ l : List ExtractionRow,
      applyLimit lim (l.map (setDeletedAt g)) =
        (applyLimit lim l).map (setDeletedAt g) := by
    intro l
    cases lim with
    | none => rfl
    | some k =>
        by_cases hk : k = 0 <;> simp [applyLimit, hk, List.map_take]
  have htfs : tagFilterStep (mapDeletedAt g db) tags =
      (tagFilterStep db tags).map (setDeletedAt g) := by
    cases tags with
    | none => rfl
    | some S =>
        by_cases hS : S.isEmpty
        · simp [tagFilterStep, mapDeletedAt, hS]
        · simp only [tagFilterStep, mapDeletedAt, hS, Bool.false_eq_true,
            if_false]
          show (db.extractions.map (setDeletedAt g)).filter
              (fun r => tagMatch db S r.id) =
            (db.extractions.filter (fun r => tagMatch db S r.id)).map
              (setDeletedAt g)
          exact filter_map_comm (setDeletedAt g)
            (fun r => tagMatch db S r.id) (fun r => rfl) db.extractions
  show applyLimit lim (sortRows ((tagFilterStep (mapDeletedAt g db) tags).filter
      (dateOk sd ed))) = _
  rw [htfs, filter_map_comm _ _ hdate, sortRows_map _ hf, happly]
  rfl

/-- Active stored extraction row for the soft-delete scenario. -/
def c4row : ExtractionRow :=
  { id := "e1"
    title := "T1"
    published_date := some "2025-01-01"
    authors := "[]"
    summary := "[]"
    tags := "x"
    pros := "[]"
    cons := "[]"
    trade_ideas := "[]"
    suggested_tags := "[]"
    created_at := 1
    deleted_at := none }

/-- Database with one active extraction. -/
def c4db : DB := { tags := [], extractions := [c4row], rels := [] }

/-- C4 counterexample: right after the soft delete, the plain
`get_extraction_by_id` still returns the record (with `deleted_at` set)
rather than the NotFound result `none` that the claim requires; the
function has no `include_deleted` parameter at all. -/
theorem c4_counterexample :
    (get_extraction_by_id pNone
        (update_extraction_deleted_at c4db "e1" (some "2025-02-02")).1 "e1").map
      (fun d => d.deleted_at) = some (some "2025-02-02") :=
  rfl

theorem find?_map_update (l : List ExtractionRow) (i : String)
    (dv : Option String) :
    ((l.map (fun r => if r.id == i then { r with deleted_at := dv } else r)).find?
      (fun r => r.id == i)) =
    (l.find? (fun r => r.id == i)).map (fun r => { r with deleted_at := dv }) := by
  have hcomp : ((fun r : ExtractionRow => r.id == i) ∘
      (fun r => if r.id == i then { r with deleted_at := dv } else r)) =
      (fun r : ExtractionRow => r.id == i) := by
    funext r
    by_cases hr : r.id = i <;> simp [Function.comp, hr]
  rw [List.find?_map, hcomp]
  cases hfind : l.find? (fun r => r.id == i) with
  | none => rfl
  | some r0 =>
      have hr0 := List.find?_some hfind
      show some (if r0.id == i then { r0 with deleted_at := dv } else r0) =
        some { r0 with deleted_at := dv }
      rw [if_pos hr0]

/-- C4 amended: `update_extraction_deleted_at` does set and clear the
`deleted_at` mark, but visibility never changes: `get_extraction_by_id`
returns the record both right after the soft delete (with `deleted_at`
set) and after the restore (with `deleted_at` cleared) — it has no
`include_deleted` parameter and never reads `deleted_at`. -/
theorem c4_amended (p : String → Option Json) (db : DB) (i t : String)
    (h : (db.extractions.find? (fun r => r.id == i)).isSome = true) :
    (∃ d, get_extraction_by_id p
        (update_extraction_deleted_at db i (some t)).1 i = some d ∧
        d.deleted_at = some t) ∧
    (∃ d2, get_extraction_by_id p
        (update_extraction_deleted_at
          (update_extraction_deleted_at db i (some t)).1 i none).1 i = some d2 ∧
        d2.deleted_at = none) := by
  rcases Option.isSome_iff_exists.1 h with ⟨r, hr⟩
  constructor
  · refine ⟨row_to_dict p { r with deleted_at := some t }, ?_, rfl⟩
    show ((db.extractions.map (fun rr =>
        if rr.id == i then { rr with deleted_at := some t } else rr)).find?
        (fun rr => rr.id == i)).map (row_to_dict p) = _
    rw [find?_map_update, hr]
    rfl
  · refine ⟨row_to_dict p { r with deleted_at := none }, ?_, rfl⟩
    show (((db.extractions.map (fun rr =>
        if rr.id == i then { rr with deleted_at := some t } else rr)).map
        (fun rr => if rr.id == i then { rr with deleted_at := none } else rr)).find?
        (fun rr => rr.id == i)).map (row_to_dict p) = _
    rw [find?_map_update, find?_map_update, hr]
    rfl

/-- Witness for C4 at a concrete database. -/
theorem c4_witness :
    ((c4db.extractions.find? (fun r => r.id == "e1")).isSome = true) ∧
    ((∃ d, get_extraction_by_id pNone
        (update_extraction_deleted_at c4db "e1" (some "2025-02-02")).1 "e1" =
          some d ∧ d.deleted_at = some "2025-02-02") ∧
     (∃ d2, get_extraction_by_id pNone
        (update_extraction_deleted_at
          (update_extraction_deleted_at c4db "e1" (some "2025-02-02")).1 "e1"
          none).1 "e1" = some d2 ∧ d2.deleted_at = none)) :=
  ⟨by decide, c4_amended pNone c4db "e1" "2025-02-02" (by decide)⟩

/-- Empty database for the validation scenarios. -/
def c5db : DB := { tags := [], extractions := [], rels := [] }

/-- Payload whose only trade idea has conviction 0. -/
def c5payload : Payload :=
  { id := some "e9"
    title := some "T9"
    trade_ideas := [{ recommendation := "R", conviction := 0 }] }

/-- Payload whose only trade idea has conviction 11. -/
def c5payload11 : Payload :=
  { id := some "e9"
    title := some "T9"
    trade_ideas := [{ recommendation := "R", conviction := 11 }] }

/-- C5 counterexample: inserts with conviction 0 and with conviction 11
both succeed and write the record — `insert_extraction` never validates
conviction, so no `ValidationError` is raised. -/
theorem c5_counterexample :
    ((insert_extraction pNone c5db c5payload).toOption.map
      (fun o => o.db.extractions.length) = some 1) ∧
    ((insert_extraction pNone c5db c5payload11).toOption.map
      (fun o => o.db.extractions.length) = some 1) :=
  ⟨rfl, rfl⟩

/-- C5 amended: `insert_extraction` performs no validation.  Any payload
with `id` and `title` present and a fresh id is written, whatever the
conviction values of its nested trade ideas; a payload without a title
fails with `KeyError` (raised while the parameter list is built, before
any write — the error return carries no new state), not with a
`ValidationError`. -/
theorem c5_amended (p : String → Option Json) (db : DB) (d : Payload)
    (i ttl : String) (h1 : d.id = some i) (h2 : d.title = some ttl)
    (h3 : db.extractions.any (fun r => r.id == i) = false) :
    (∃ out, insert_extraction p db d = .ok out ∧
      out.db.extractions.length = db.extractions.length + 1) ∧
    insert_extraction p db { d with title := none } =
      .error (.keyError "title") := by
  constructor
  · simp only [insert_extraction, h1, h2, h3, Bool.false_eq_true, if_false]
    exact ⟨_, rfl, by simp⟩
  · simp [insert_extraction, h1]

/-- Witness for C5 at the conviction-0 payload. -/
theorem c5_witness :
    (c5payload.id = some "e9") ∧
    ((∃ out, insert_extraction pNone c5db c5payload = .ok out ∧
        out.db.extractions.length = c5db.extractions.length + 1) ∧
     insert_extraction pNone c5db { c5payload with title := none } =
       .error (.keyError "title")) :=
  ⟨rfl, c5_amended pNone c5db c5payload "e9" "T9" rfl rfl rfl⟩

/-- Catalog holding a region tag whose name contains a space. -/
def c6db : DB :=
  { tags := [⟨"r1", "Asia Pacific", "region"⟩], extractions := [], rels := [] }

/-- Payload whose tags object lists that region name. -/
def c6payload : Payload :=
  { id := some "e1"
    title := some "T"
    published_date := some "2025-01-01"
    tags := { region := ["Asia Pacific"] } }

/-- C6 counterexample: the write path links the region name verbatim
(one relationship row, no miss), but the read path strips the space from
the same requested name, so querying that very name returns nothing —
the two paths do not apply the same normalization and the stored and
queried forms disagree. -/
theorem c6_counterexample :
    ((insert_extraction pNone c6db c6payload).toOption.map
      (fun o => (o.linked, o.misses,
        (select_extractions o.db (some ["Asia Pacific"]) none none none).length)))
      = some (1, [], 0) :=
  rfl

theorem filter_idem {α : Type} (q : α → Bool) (l : List α) :
    (l.filter q).filter q = l.filter q := by
  induction l with
  | nil => rfl
  | cons x xs ih =>
      by_cases hx : q x = true <;> simp [List.filter_cons, hx, ih]

theorem normTag_idem (s : String) : normTag (normTag s) = normTag s := by
  show String.mk ((s.data.filter _).filter _) = String.mk (s.data.filter _)
  exact congrArg String.mk (filter_idem _ _)

theorem normTags_idem (S : List String) :
    (S.map normTag).map normTag = S.map normTag := by
  rw [List.map_map]
  exact List.map_congr_left fun a _ => normTag_idem a

theorem tagMatch_norm (db : DB) (S : List String) (eid : String) :
    tagMatch db (S.map normTag) eid = tagMatch db S eid := by
  unfold tagMatch
  rw [normTags_idem, List.length_map]

/-- Pre-normalize only the counterpart value of a tags object. -/
def normalizeCounterpart (t : TagsObj) : TagsObj :=
  { t with counterpart := t.counterpart.map normTag }

/-- C6 amended: the space-stripping normalization is applied to the
counterpart value on the write path and to every requested name on the
read path — both are invariant under pre-normalizing those values — but
the six category lists are looked up verbatim on the write path, so a
category tag name containing a space is linked under its raw form yet
can never be matched by a tag-filter query (the counterexample).  The
hypothesis excludes a counterpart made of spaces only, which the write
path treats as truthy while its normal form is falsy. -/
theorem c6_amended (db : DB) (eid : String) (tobj : TagsObj)
    (S : List String) (sd ed : Option String) (lim : Option Nat)
    (h : match tobj.counterpart with
         | some s => s = "" ∨ normTag s ≠ ""
         | none => True) :
    insert_extraction_tag_relations db eid (normalizeCounterpart tobj) =
      insert_extraction_tag_relations db eid tobj ∧
    select_extractions db (some (S.map normTag)) sd ed lim =
      select_extractions db (some S) sd ed lim := by
  constructor
  · have hli : linkItems (normalizeCounterpart tobj) = linkItems tobj := by
      simp only [linkItems, normalizeCounterpart]
      cases hc : tobj.counterpart with
      | none => rfl
      | some s =>
          rw [hc] at h
          show _ ++ (match (some s).map normTag with
            | some s => if s = "" then [] else [(normTag s, "counterpart")]
            | none => []) = _
          simp only [Option.map_some']
          rcases h with rfl | hne
          · rfl
          · have hs : s ≠ "" := fun he => hne (by rw [he]; rfl)
            rw [if_neg hne, if_neg hs, normTag_idem]
    unfold insert_extraction_tag_relations
    rw [hli]
  · simp only [select_extractions, tagFilterStep]
    have hie : (S.map normTag).isEmpty = S.isEmpty := by cases S <;> rfl
    rw [hie]
    by_cases hS : S.isEmpty
    · simp [hS]
    · simp only [hS, Bool.false_eq_true, if_false]
      have hfun : (fun r : ExtractionRow => tagMatch db (S.map normTag) r.id) =
          (fun r : ExtractionRow => tagMatch db S r.id) :=
        funext fun r => tagMatch_norm db S r.id
      rw [hfun]

/-- Witness for C6 at a concrete tags object and request list. -/
theorem c6_witness :
    (match (some "Goldman Sachs" : Option String) with
     | some s => s = "" ∨ normTag s ≠ ""
     | none => True) ∧
    (insert_extraction_tag_relations c6db "e1"
        (normalizeCounterpart { counterpart := some "Goldman Sachs" }) =
      insert_extraction_tag_relations c6db "e1"
        { counterpart := some "Goldman Sachs" } ∧
     select_extractions c6db (some (["Asia Pacific"].map normTag))
        none none none =
      select_extractions c6db (some ["Asia Pacific"]) none none none) :=
  ⟨by decide,
   c6_amended c6db "e1" { counterpart := some "Goldman Sachs" }
     ["Asia Pacific"] none none none (by decide)⟩

/-- Active stored extraction row for the limit scenario. -/
def c7row : ExtractionRow :=
  { id := "e7"
    title := "T7"
    published_date := some "2025-01-01"
    authors := "[]"
    summary := "[]"
    tags := "x"
    pros := "[]"
    cons := "[]"
    trade_ideas := "[]"
    suggested_tags := "[]"
    created_at := 1
    deleted_at := none }

/-- Database with one extraction for the limit scenario. -/
def c7db : DB := { tags := [], extractions := [c7row], rels := [] }

/-- C7 counterexample: with one stored extraction, `get_extractions`
called with limit 0 returns that row, not the empty list — the Python
guard `if limit:` treats 0 as falsy and skips the LIMIT clause. -/
theorem c7_counterexample :
    (get_extractions pNone c7db none none none (some 0)).length = 1 :=
  rfl

/-- C7 amended: a limit of 0 behaves as no limit at all (same full
ordered result), while a positive limit truncates the result after the
ordering has been applied. -/
theorem c7_amended (db : DB) (tags : Option (List String))
    (sd ed : Option String) :
    select_extractions db tags sd ed (some 0) =
      select_extractions db tags sd ed none ∧
    ∀ k : Nat, select_extractions db tags sd ed (some (k + 1)) =
      (select_extractions db tags sd ed none).take (k + 1) := by
  constructor
  · rfl
  · intro k
    simp [select_extractions, applyLimit]

/-- Catalog already holding ("Japan", "country") under id t1. -/
def c8db : DB :=
  { tags := [⟨"t1", "Japan", "country"⟩], extractions := [], rels := [] }

/-- C8 counterexample: inserting ("Japan", "country") twice under two
fresh ids raises no `DuplicateKey` and is no no-op — afterwards the
catalog holds two distinct usable rows for the same (name, category)
pair, since the table only constrains the id column. -/
theorem c8_counterexample :
    ((insert_tag { tags := [], extractions := [], rels := [] }
        "t1" "Japan" "country").toOption.map
      (fun x => (insert_tag x.1 "t2" "Japan" "country").toOption.map
        (fun y => (y.1.tags.filter
          (fun t => t.name == "Japan" && t.category == "country")).length)))
      = some (some 2) :=
  rfl

/-- C8 amended: `insert_tag` checks uniqueness only on the id primary
key.  Inserting a (name, category) pair that already exists, under a
fresh id, succeeds and adds a second catalog row for the same pair; only
an id collision fails. -/
theorem c8_amended (db : DB) (tid n c : String)
    (h1 : db.tags.any (fun t => t.id == tid) = false)
    (h2 : 1 ≤ (db.tags.filter (fun t => t.name == n && t.category == c)).length) :
    ∃ db2 tg, insert_tag db tid n c = .ok (db2, tg) ∧
      2 ≤ (db2.tags.filter (fun t => t.name == n && t.category == c)).length := by
  have hins : insert_tag db tid n c =
      .ok ({ db with tags := db.tags ++ [⟨tid, n, c⟩] }, ⟨tid, n, c⟩) := by
    simp [insert_tag, h1]
  refine ⟨_, _, hins, ?_⟩
  show 2 ≤ ((db.tags ++ [(⟨tid, n, c⟩ : Tag)]).filter
    (fun t => t.name == n && t.category == c)).length
  rw [List.filter_append, List.length_append]
  have hone : (([(⟨tid, n, c⟩ : Tag)]).filter
      (fun t => t.name == n && t.category == c)).length = 1 := by simp
  omega

/-- Witness for C8 at a concrete catalog. -/
theorem c8_witness :
    (c8db.tags.any (fun t => t.id == "t2") = false) ∧
    ∃ db2 tg, insert_tag c8db "t2" "Japan" "country" = .ok (db2, tg) ∧
      2 ≤ (db2.tags.filter
        (fun t => t.name == "Japan" && t.category == "country")).length :=
  ⟨by decide, c8_amended c8db "t2" "Japan" "country" (by decide) (by decide)⟩

theorem link_one_step (catalog : List Tag) (eid : String) (st : LinkResult)
    (name dbCat : String) :
    ((link_one catalog eid st name dbCat).rels.length + st.linked =
      st.rels.length + (link_one catalog eid st name dbCat).linked) ∧
    ((link_one catalog eid st name dbCat).misses = st.misses ∨
     ((link_one catalog eid st name dbCat).misses = st.misses ++ [(name, dbCat)] ∧
      lookup_tag catalog name dbCat = none)) := by
  unfold link_one
  split
  next t heq =>
    split
    next hdup => exact ⟨rfl, Or.inl rfl⟩
    next hdup =>
      refine ⟨?_, Or.inl rfl⟩
      show (st.rels ++ [(⟨eid, t.id, dbCat⟩ : Rel)]).length + st.linked =
        st.rels.length + (st.linked + 1)
      simp only [List.length_append, List.length_cons, List.length_nil]
      omega
  next heq => exact ⟨rfl, Or.inr ⟨rfl, heq⟩⟩

theorem link_fold_invariant (catalog : List Tag) (eid : String)
    (items : List (String × String)) (st : LinkResult) :
    ((items.foldl (fun s it => link_one catalog eid s it.1 it.2) st).rels.length
        + st.linked =
      st.rels.length +
        (items.foldl (fun s it => link_one catalog eid s it.1 it.2) st).linked) ∧
    ∀ m ∈ (items.foldl (fun s it => link_one catalog eid s it.1 it.2) st).misses,
      m ∈ st.misses ∨ lookup_tag catalog m.1 m.2 = none := by
  induction items generalizing st with
  | nil => exact ⟨rfl, fun m hm => Or.inl hm⟩
  | cons it rest ih =>
      simp only [List.foldl_cons]
      rcases ih (link_one catalog eid st it.1 it.2) with ⟨ha, hb⟩
      rcases link_one_step catalog eid st it.1 it.2 with ⟨hs, hm⟩
      constructor
      · omega
      · intro m hm2
        rcases hb m hm2 with hmem | hnone
        · rcases hm with heq | ⟨heq, hlk⟩
          · rw [heq] at hmem
            exact Or.inl hmem
          · rw [heq] at hmem
            rcases List.mem_append.1 hmem with hin | hin
            · exact Or.inl hin
            · have hmeq : m = (it.1, it.2) := by simpa using hin
              rw [hmeq]
              exact Or.inr hlk
        · exact Or.inr hnone

theorem linker_eq_fold (db : DB) (eid : String) (tobj : TagsObj) :
    insert_extraction_tag_relations db eid tobj =
      (linkItems tobj).foldl (fun st it => link_one db.tags eid st it.1 it.2)
        { rels := db.rels, linked := 0, misses := [] } :=
  rfl

/-- C9: linking never raises and never aborts the insert.  Whatever the
tags object holds, the insert succeeds; the relationship table grows by
exactly the reported created-row count, every reported miss is a name
and DB category with no catalog entry, and the extraction row itself is
stored regardless of the misses. -/
theorem c9_linker (p : String → Option Json) (db : DB) (d : Payload)
    (i ttl : String) (h1 : d.id = some i) (h2 : d.title = some ttl)
    (h3 : db.extractions.any (fun r => r.id == i) = false) :
    ∃ out, insert_extraction p db d = .ok out ∧
      out.db.rels.length = db.rels.length + out.linked ∧
      (∀ m ∈ out.misses, lookup_tag db.tags m.1 m.2 = none) ∧
      out.db.extractions.length = db.extractions.length + 1 := by
  simp only [insert_extraction, h1, h2, h3, Bool.false_eq_true, if_false]
  refine ⟨_, rfl, ?_, ?_, by simp⟩
  · show ((insert_extraction_tag_relations _ i d.tags).rels).length =
      db.rels.length + (insert_extraction_tag_relations _ i d.tags).linked
    rw [linker_eq_fold]
    dsimp only
    rcases link_fold_invariant db.tags i (linkItems d.tags)
      { rels := db.rels, linked := 0, misses := [] } with ⟨ha, _⟩
    simpa using ha
  · show ∀ m ∈ (insert_extraction_tag_relations _ i d.tags).misses,
      lookup_tag db.tags m.1 m.2 = none
    rw [linker_eq_fold]
    dsimp only
    rcases link_fold_invariant db.tags i (linkItems d.tags)
      { rels := db.rels, linked := 0, misses := [] } with ⟨_, hb⟩
    intro m hm
    rcases hb m hm with hmem | hnone
    · simp at hmem
    · exact hnone

/-- Catalog and payload with one matching and one missing tag name. -/
def c9db : DB :=
  { tags := [⟨"t1", "Japan", "country"⟩], extractions := [], rels := [] }

/-- Payload for the witness: one name links, one name misses. -/
def c9payload : Payload :=
  { id := some "e1"
    title := some "T"
    tags := { country := ["Japan"], sector := ["Unknown"] } }

/-- Witness for C9 at a concrete insert containing a linking miss. -/
theorem c9_witness :
    (c9payload.id = some "e1") ∧
    ∃ out, insert_extraction pNone c9db c9payload = .ok out ∧
      out.db.rels.length = c9db.rels.length + out.linked ∧
      (∀ m ∈ out.misses, lookup_tag c9db.tags m.1 m.2 = none) ∧
      out.db.extractions.length = c9db.extractions.length + 1 :=
  ⟨rfl, c9_linker pNone c9db c9payload "e1" "T" rfl rfl rfl⟩

theorem mem_select_subset {db : DB} {tags : Option (List String)}
    {sd ed : Option String} {lim : Option Nat} {r : ExtractionRow}
    (h : r ∈ select_extractions db tags sd ed lim) : r ∈ db.extractions := by
  unfold select_extractions at h
  have h1 : ∀ l : List ExtractionRow, r ∈ applyLimit lim l → r ∈ l := by
    intro l hl
    cases lim with
    | none => exact hl
    | some k =>
        by_cases hk : k = 0
        · simpa [applyLimit, hk] using hl
        · simp only [applyLimit, hk, if_false] at hl
          exact List.mem_of_mem_take hl
  have h2 := (mem_sortRows).1 (h1 _ h)
  have h3 := (List.mem_filter.1 h2).1
  unfold tagFilterStep at h3
  cases tags with
  | none => exact h3
  | some S =>
      by_cases hS : S.isEmpty
      · simpa [hS] using h3
      · simp only [hS, Bool.false_eq_true, if_false] at h3
        exact (List.mem_filter.1 h3).1

/-- C10: every record handed out by `get_extractions`,
`get_extraction_by_id` or `insert_extraction` is a stored row decoded by
`_row_to_dict`, whose seven JSON-valued fields are the decode of the
stored strings; a string on which the parse function fails is silently
replaced by the empty list, and the decode step is total — it never
raises. -/
theorem c10_decoding (p : String → Option Json) (db : DB)
    (tags : Option (List String)) (sd ed : Option String) (lim : Option Nat) :
    (∀ d ∈ get_extractions p db tags sd ed lim,
      ∃ r, r ∈ db.extractions ∧ d = row_to_dict p r ∧
        d.authors = decodeJsonField p r.authors ∧
        d.summary = decodeJsonField p r.summary ∧
        d.tags = decodeJsonField p r.tags ∧
        d.pros = decodeJsonField p r.pros ∧
        d.cons = decodeJsonField p r.cons ∧
        d.trade_ideas = decodeJsonField p r.trade_ideas ∧
        d.suggested_tags = decodeJsonField p r.suggested_tags) ∧
    (∀ i dd, get_extraction_by_id p db i = some dd →
      ∃ r, r ∈ db.extractions ∧ dd = row_to_dict p r) ∧
    (∀ pay out dd, insert_extraction p db pay = .ok out → out.record = some dd →
      ∃ r, r ∈ out.db.extractions ∧ dd = row_to_dict p r) ∧
    (∀ s, p s = none → decodeJsonField p s = Json.arr []) := by
  refine ⟨?_, ?_, ?_, ?_⟩
  · intro d hd
    rcases List.mem_map.1 hd with ⟨r, hr, rfl⟩
    exact ⟨r, mem_select_subset hr, rfl, rfl, rfl, rfl, rfl, rfl, rfl, rfl⟩
  · intro i dd hdd
    unfold get_extraction_by_id at hdd
    cases hfind : db.extractions.find? (fun r => r.id == i) with
    | none => rw [hfind] at hdd; cases hdd
    | some r =>
        rw [hfind] at hdd
        refine ⟨r, List.mem_of_find?_eq_some hfind, ?_⟩
        cases hdd
        rfl
  · intro pay out dd hok hrec
    unfold insert_extraction at hok
    split at hok
    · cases hok
    · split at hok
      · cases hok
      · split at hok
        · cases hok
        · cases hok
          dsimp only at hrec ⊢
          rcases Option.map_eq_some'.1 hrec with ⟨r, hfind, hdd⟩
          exact ⟨r, List.mem_of_find?_eq_some hfind, hdd.symm⟩
  · intro s hs
    unfold decodeJsonField
    rw [hs]

/-- Stored row whose authors column is not valid JSON text. -/
def c10row : ExtractionRow :=
  { id := "ea"
    title := "T"
    published_date := none
    authors := "not json"
    summary := "[]"
    tags := "[]"
    pros := "[]"
    cons := "[]"
    trade_ideas := "[]"
    suggested_tags := "[]"
    created_at := 0
    deleted_at := none }

/-- Database holding that row. -/
def c10db : DB := { tags := [], extractions := [c10row], rels := [] }

/-- Witness for C10 at a concrete lookup. -/
theorem c10_witness :
    ∃ r, r ∈ c10db.extractions ∧
      row_to_dict pNone c10row = row_to_dict pNone r :=
  (c10_decoding pNone c10db none none none none).2.1 "ea"
    (row_to_dict pNone c10row) rfl

end MockBigQuery
